import Mathlib

set_option maxRecDepth 100000

/-!
Shallow embedding of the DBC-file parser (`src/lib.rs` of `import_dbc`).

The Rust core recognizes three line constructs via regexes:

* node list    — TAG `"BU_"`,  regex `(\w+)` iterated over the line,
* message head — TAG `"BO_ "`, regex `BO_ (\w+) (\w+) *: (\w+) (\w+).*`,
* signal       — TAG `"SG_ "`, regex
  `SG_ (\w+) : (\d+)\|(\d+)@(\d+)([\+|\-]) \(([0-9.+\-eE]+),([0-9.+\-eE]+)\) \[([0-9.+\-eE]+)\|([0-9.+\-eE]+)\] "(.*)" (.*)`,

and assembles lines with a two-state loop (`parse`).  The regexes, match
search, `str::lines`, `str::trim`, the numeric `parse::<uN>().unwrap()`
calls and the `panic!` control flow are all modelled explicitly below.
Character classes are modelled at ASCII granularity (`\w` = ASCII
alphanumeric or underscore), matching the inputs the program is written
for.  All three regexes use pairwise-disjoint character classes around
their greedy repetitions except the final `"(.*)" (.*)` of the signal
pattern, so greedy left-to-right scanning is exact; for `"(.*)" (.*)`
greediness means splitting at the *last* quote-space occurrence, which
`lastSplitQS` implements.
-/

namespace ImportDbc

/-- ASCII model of the regex class `\w`: alphanumeric or underscore. -/
def isWordChar (c : Char) : Bool := c.isAlphanum || c = '_'

/-- The regex class `[0-9.+\-eE]` used for factor / offset / min / max. -/
def isNumChar (c : Char) : Bool :=
  c.isDigit || c = '.' || c = '+' || c = '-' || c = 'e' || c = 'E'

/-- Model of Rust `str::trim` (whitespace from both ends). -/
def trimChars (cs : List Char) : List Char :=
  ((cs.dropWhile Char.isWhitespace).reverse.dropWhile Char.isWhitespace).reverse

/-- Greedy split: the maximal leading run satisfying `p`, and the rest. -/
def runSplit (p : Char → Bool) (cs : List Char) : List Char × List Char :=
  (cs.takeWhile p, cs.dropWhile p)

/-- Greedy match of `(.*)" (.*)`: split at the last `" ` (quote, space)
occurrence.  The whole remaining text is scanned; preferring a match in
the tail makes the first capture as long as possible, exactly the
backtracking behaviour of the greedy `.*`. -/
def lastSplitQS : List Char → Option (List Char × List Char)
  | [] => none
  | c :: t =>
    match lastSplitQS t with
    | some (p, q) => some (c :: p, q)
    | none =>
      match c, t with
      | '"', ' ' :: u => some ([], u)
      | _, _ => none

/-- Dot in the Rust regex crate matches any character except `'\n'`, so
the `"(.*)" (.*)` suffix operates within the current no-newline span. -/
def quoteSplit (cs : List Char) : Option (List Char × List Char) :=
  lastSplitQS (cs.takeWhile (· ≠ '\n'))

/-- Attempt the message-header regex `BO_ (\w+) (\w+) *: (\w+) (\w+).*`
anchored at the start of `cs`; returns the four captures.  The trailing
`.*` constrains nothing and is dropped. -/
def msgCapsAt (cs : List Char) : Option (String × String × String × String) :=
  match cs with
  | 'B' :: 'O' :: '_' :: ' ' :: r =>
    match runSplit isWordChar r with
    | ([], _) => none
    | (g1, r1) =>
      match r1 with
      | ' ' :: r2 =>
        match runSplit isWordChar r2 with
        | ([], _) => none
        | (g2, r3) =>
          match r3.dropWhile (· = ' ') with
          | ':' :: ' ' :: r4 =>
            match runSplit isWordChar r4 with
            | ([], _) => none
            | (g3, r5) =>
              match r5 with
              | ' ' :: r6 =>
                match runSplit isWordChar r6 with
                | ([], _) => none
                | (g4, _) =>
                  some (String.mk g1, String.mk g2, String.mk g3, String.mk g4)
              | _ => none
          | _ => none
      | _ => none
  | _ => none

/-- Unanchored search for the message-header regex (Rust `is_match` /
`captures` scan every starting position, leftmost match wins). -/
def msgSearch : List Char → Option (String × String × String × String)
  | [] => none
  | c :: t =>
    match msgCapsAt (c :: t) with
    | some r => some r
    | none => msgSearch t

/-- Attempt the signal regex anchored at the start of `cs`; returns the
eleven captures (name, start bit, size, order digit, sign char, factor,
offset, min, max, unit, receivers). -/
def sigCapsAt (cs : List Char) :
    Option (String × String × String × String × String × String × String ×
            String × String × String × String) :=
  match cs with
  | 'S' :: 'G' :: '_' :: ' ' :: r =>
    match runSplit isWordChar r with
    | ([], _) => none
    | (g1, r1) =>
      match r1 with
      | ' ' :: ':' :: ' ' :: r2 =>
        match runSplit Char.isDigit r2 with
        | ([], _) => none
        | (g2, r3) =>
          match r3 with
          | '|' :: r4 =>
            match runSplit Char.isDigit r4 with
            | ([], _) => none
            | (g3, r5) =>
              match r5 with
              | '@' :: r6 =>
                match runSplit Char.isDigit r6 with
                | ([], _) => none
                | (g4, r7) =>
                  match r7 with
                  | g5c :: ' ' :: '(' :: r8 =>
                    if g5c = '+' || g5c = '|' || g5c = '-' then
                      match runSplit isNumChar r8 with
                      | ([], _) => none
                      | (g6, r9) =>
                        match r9 with
                        | ',' :: r10 =>
                          match runSplit isNumChar r10 with
                          | ([], _) => none
                          | (g7, r11) =>
                            match r11 with
                            | ')' :: ' ' :: '[' :: r12 =>
                              match runSplit isNumChar r12 with
                              | ([], _) => none
                              | (g8, r13) =>
                                match r13 with
                                | '|' :: r14 =>
                                  match runSplit isNumChar r14 with
                                  | ([], _) => none
                                  | (g9, r15) =>
                                    match r15 with
                                    | ']' :: ' ' :: '"' :: r16 =>
                                      match quoteSplit r16 with
                                      | some (g10, g11) =>
                                        some (String.mk g1, String.mk g2,
                                              String.mk g3, String.mk g4,
                                              String.mk [g5c], String.mk g6,
                                              String.mk g7, String.mk g8,
                                              String.mk g9, String.mk g10,
                                              String.mk (g11.takeWhile (· ≠ '\n')))
                                      | none => none
                                    | _ => none
                                | _ => none
                            | _ => none
                        | _ => none
                    else none
                  | _ => none
              | _ => none
          | _ => none
      | _ => none
  | _ => none

/-- Unanchored search for the signal regex. -/
def sigSearch : List Char →
    Option (String × String × String × String × String × String × String ×
            String × String × String × String)
  | [] => none
  | c :: t =>
    match sigCapsAt (c :: t) with
    | some r => some r
    | none => sigSearch t

/-- Successive matches of the iterated regex `(\w+)`: the maximal runs of
word characters, left to right (Rust `captures_iter`). -/
def wordRunsAux : List Char → List Char → List String
  | [], acc => match acc with | [] => [] | _ => [String.mk acc.reverse]
  | c :: t, acc =>
    if isWordChar c then wordRunsAux t (c :: acc)
    else
      match acc with
      | [] => wordRunsAux t []
      | _ => String.mk acc.reverse :: wordRunsAux t []

def wordRuns (cs : List Char) : List String := wordRunsAux cs []

/-- Numeric value of a decimal-digit list. -/
def decDigitsVal (cs : List Char) : Nat :=
  cs.foldl (fun a c => a * 10 + (c.toNat - 48)) 0

/-- Model of Rust `str::parse::<uN>` on a regex capture: all characters
must be decimal digits (captures are `\w+`/`\d+`, so no sign is ever
present) and the value must fit the width bound. -/
def parseBounded (s : String) (bound : Nat) : Option Nat :=
  if s.data ≠ [] ∧ s.data.all Char.isDigit then
    if decDigitsVal s.data ≤ bound then some (decDigitsVal s.data) else none
  else none

def U32MAX : Nat := 4294967295
def U8MAX : Nat := 255
def U16MAX : Nat := 65535

structure Node where
  name : String
deriving DecidableEq, Repr

structure Signal where
  name : String
  start_bit : Nat
  size : Nat
  is_little_endian : Bool
  is_signed : Bool
  factor : String
  offset : String
  value_min : String
  value_max : String
  unit : String
deriving DecidableEq, Repr

structure Message where
  id : Nat
  name : String
  size : Nat
  signals : List Signal
deriving DecidableEq, Repr

structure Dbc where
  nodes : List Node
  messages : List Message
deriving DecidableEq, Repr

/-- Outcome of `parse_type` / `parse_type_vec` on one line, with the
panic of an inner `unwrap` made explicit:
`ok` = `Ok`, `wrongType` = `Err(WrongType)`,
`invalidContent` = `Err(InvalidContent)`,
`panicked` = a numeric-conversion `unwrap` panic inside `from`. -/
inductive LineResult (α : Type) where
  | ok (val : α)
  | wrongType
  | invalidContent
  | panicked
deriving DecidableEq, Repr

/-- Model of `Message::from`: `id` parsed as `u32`, `size` as `u8`; either
`unwrap` failing is a panic (`none`). The fourth capture is unused. -/
def Message.fromCaps (g1 g2 g3 _g4 : String) : Option Message :=
  match parseBounded g1 U32MAX, parseBounded g3 U8MAX with
  | some i, some s => some ⟨i, g2, s, []⟩
  | _, _ => none

/-- Model of `Signal::from`: start bit and size parsed as `u16`;
`is_little_endian` iff the order-digit capture is exactly `"1"`;
`is_signed` iff the sign capture is `"-"`. -/
def Signal.fromCaps (g1 g2 g3 g4 g5 g6 g7 g8 g9 g10 _g11 : String) :
    Option Signal :=
  match parseBounded g2 U16MAX, parseBounded g3 U16MAX with
  | some sb, some sz =>
    some ⟨g1, sb, sz, g4 = "1", g5 = "-", g6, g7, g8, g9, g10⟩
  | _, _ => none

/-- Model of `parse_type::<Message>`: trim, then `is_match` (substring search);
no match falls back to the tag test for `WrongType` vs `InvalidContent`;
a match extracts captures and runs `Message::from`. -/
def parseMessageLine (line : String) : LineResult Message :=
  match msgSearch (trimChars line.data) with
  | some (g1, g2, g3, g4) =>
    match Message.fromCaps g1 g2 g3 g4 with
    | some m => .ok m
    | none => .panicked
  | none =>
    if "BO_ ".data.isPrefixOf (trimChars line.data) then .invalidContent
    else .wrongType

/-- Model of `parse_type::<Signal>`. -/
def parseSignalLine (line : String) : LineResult Signal :=
  match sigSearch (trimChars line.data) with
  | some (g1, g2, g3, g4, g5, g6, g7, g8, g9, g10, g11) =>
    match Signal.fromCaps g1 g2 g3 g4 g5 g6 g7 g8 g9 g10 g11 with
    | some s => .ok s
    | none => .panicked
  | none =>
    if "SG_ ".data.isPrefixOf (trimChars line.data) then .invalidContent
    else .wrongType

/-- Model of `parse_type_vec::<Node>`: trim, tag test `starts_with("BU_")`, then
one `Node` per `(\w+)` match whose text is not exactly the tag `"BU_"`.
Never returns `invalidContent` or `panicked`. -/
def parseNodesLine (line : String) : LineResult (List Node) :=
  if "BU_".data.isPrefixOf (trimChars line.data) then
    .ok (((wordRuns (trimChars line.data)).filter (fun s => s ≠ "BU_")).map Node.mk)
  else .wrongType

/-- Split at `'\n'`, keeping a (possibly empty) final segment. -/
def splitNl : List Char → List (List Char)
  | [] => [[]]
  | '\n' :: t => [] :: splitNl t
  | c :: t =>
    match splitNl t with
    | [] => [[c]]
    | h :: r => (c :: h) :: r

/-- Strip one trailing `'\r'` (applied to `'\n'`-terminated segments). -/
def stripCR (cs : List Char) : List Char :=
  match cs.getLast? with
  | some '\r' => cs.dropLast
  | _ => cs

/-- Model of Rust `str::lines`: split at `'\n'`, strip a `'\r'` directly
before each `'\n'`, drop the final segment when the text ends in `'\n'`
(and yield nothing for empty text); a last segment not terminated by
`'\n'` is kept verbatim. -/
def rustLines (s : String) : List String :=
  match s.data with
  | [] => []
  | cs =>
    let parts := splitNl cs
    if cs.getLast? = some '\n' then
      parts.dropLast.map (fun l => String.mk (stripCR l))
    else
      parts.dropLast.map (fun l => String.mk (stripCR l)) ++
        [String.mk (parts.getLastD [])]

/-- Loop state of `parse`: the three accumulators and the flag. -/
structure PState where
  nodes : List Node
  messages : List Message
  signals : List Signal
  in_message : Bool
deriving DecidableEq, Repr

/-- Loop-carried panics and the `panic!` calls of `parse`, with their
diagnostics: `invalidNodes` / `invalidMessageStart` / `invalidSignal`
carry the 1-based line number and raw line text; `fromPanic` is a
numeric `unwrap` panic inside a `from`; `lastNonePanic` is
`messages.last_mut().unwrap()` on an empty vector. -/
inductive ParseErr where
  | invalidNodes (lineNum : Nat) (line : String)
  | invalidMessageStart (lineNum : Nat) (line : String)
  | invalidSignal (lineNum : Nat) (line : String)
  | fromPanic
  | lastNonePanic
deriving DecidableEq, Repr

/-- Model of `current_message.signals = signals.clone()`: replace the `signals`
field of the last message. -/
def setLastSignals : List Message → List Signal → List Message
  | [], _ => []
  | [m], sgs => [{ m with signals := sgs }]
  | m :: m2 :: rest, sgs => m :: setLastSignals (m2 :: rest) sgs

/-- One iteration of the `for (i, line)` loop of `parse` on line index
`i` (0-based; panics report `i+1`). -/
def stepLine (i : Nat) (line : String) (st : PState) : Except ParseErr PState :=
  match st.in_message with
  | true =>
    match st.messages with
    | [] => .error .lastNonePanic
    | _ :: _ =>
      match parseSignalLine line with
      | .ok sg => .ok { st with in_message := true, signals := st.signals ++ [sg] }
      | .invalidContent => .error (.invalidSignal (i + 1) line)
      | .panicked => .error .fromPanic
      | .wrongType =>
        .ok { st with in_message := false,
                      messages := setLastSignals st.messages st.signals,
                      signals := [] }
  | false =>
    match
      (match parseNodesLine line with
       | .ok ns => Except.ok { st with nodes := ns }
       | .wrongType => Except.ok st
       | .invalidContent => Except.error (ParseErr.invalidNodes (i + 1) line)
       | .panicked => Except.error ParseErr.fromPanic) with
    | .error e => .error e
    | .ok st1 =>
      match parseMessageLine line with
      | .ok m => .ok { st1 with in_message := true, messages := st1.messages ++ [m] }
      | .invalidContent => .error (.invalidMessageStart (i + 1) line)
      | .panicked => .error .fromPanic
      | .wrongType => .ok st1

/-- The whole line loop, threading the index. -/
def runLines : Nat → List String → PState → Except ParseErr PState
  | _, [], st => .ok st
  | i, l :: ls, st =>
    match stepLine i l st with
    | .ok st2 => runLines (i + 1) ls st2
    | .error e => .error e

/-- The end-of-input flush of `parse`: if a message block is still open,
attach the remaining signals to the last message. -/
def finishState (st : PState) : Except ParseErr Dbc :=
  match st.in_message, st.messages with
  | true, [] => .error .lastNonePanic
  | true, m :: ms => .ok ⟨st.nodes, setLastSignals (m :: ms) st.signals⟩
  | false, _ => .ok ⟨st.nodes, st.messages⟩

/-- Model of `parse`: run the loop from the empty state, then flush a still-open
message block onto the last message. -/
def parse (contents : String) : Except ParseErr Dbc :=
  match runLines 0 (rustLines contents) ⟨[], [], [], false⟩ with
  | .error e => .error e
  | .ok st => finishState st

/-! ### Classifier case lemmas -/

lemma msgLine_wrongType_iff (ℓ : String) :
    parseMessageLine ℓ = LineResult.wrongType ↔
      (msgSearch (trimChars ℓ.data) = none ∧
       "BO_ ".data.isPrefixOf (trimChars ℓ.data) = false) := by
  unfold parseMessageLine
  rcases h : msgSearch (trimChars ℓ.data) with _ | ⟨g1, g2, g3, g4⟩
  · by_cases hp : "BO_ ".data.isPrefixOf (trimChars ℓ.data) <;> simp [hp]
  · rcases h2 : Message.fromCaps g1 g2 g3 g4 with _ | m <;> simp [h2]

lemma msgLine_malformed_iff (ℓ : String) :
    parseMessageLine ℓ = LineResult.invalidContent ↔
      (msgSearch (trimChars ℓ.data) = none ∧
       "BO_ ".data.isPrefixOf (trimChars ℓ.data) = true) := by
  unfold parseMessageLine
  rcases h : msgSearch (trimChars ℓ.data) with _ | ⟨g1, g2, g3, g4⟩
  · by_cases hp : "BO_ ".data.isPrefixOf (trimChars ℓ.data) <;> simp [hp]
  · rcases h2 : Message.fromCaps g1 g2 g3 g4 with _ | m <;> simp [h2]

lemma sigLine_wrongType_iff (ℓ : String) :
    parseSignalLine ℓ = LineResult.wrongType ↔
      (sigSearch (trimChars ℓ.data) = none ∧
       "SG_ ".data.isPrefixOf (trimChars ℓ.data) = false) := by
  unfold parseSignalLine
  rcases h : sigSearch (trimChars ℓ.data) with _ | ⟨g1, g2, g3, g4, g5, g6, g7, g8, g9, g10, g11⟩
  · by_cases hp : "SG_ ".data.isPrefixOf (trimChars ℓ.data) <;> simp [hp]
  · rcases h2 : Signal.fromCaps g1 g2 g3 g4 g5 g6 g7 g8 g9 g10 g11 with _ | m <;> simp [h2]

lemma sigLine_malformed_iff (ℓ : String) :
    parseSignalLine ℓ = LineResult.invalidContent ↔
      (sigSearch (trimChars ℓ.data) = none ∧
       "SG_ ".data.isPrefixOf (trimChars ℓ.data) = true) := by
  unfold parseSignalLine
  rcases h : sigSearch (trimChars ℓ.data) with _ | ⟨g1, g2, g3, g4, g5, g6, g7, g8, g9, g10, g11⟩
  · by_cases hp : "SG_ ".data.isPrefixOf (trimChars ℓ.data) <;> simp [hp]
  · rcases h2 : Signal.fromCaps g1 g2 g3 g4 g5 g6 g7 g8 g9 g10 g11 with _ | m <;> simp [h2]

lemma nodesLine_wrongType_iff (ℓ : String) :
    parseNodesLine ℓ = LineResult.wrongType ↔
      "BU_".data.isPrefixOf (trimChars ℓ.data) = false := by
  unfold parseNodesLine
  by_cases hp : "BU_".data.isPrefixOf (trimChars ℓ.data) <;> simp [hp]

lemma nodesLine_never_malformed (ℓ : String) :
    (parseNodesLine ℓ = LineResult.invalidContent) ↔ False := by
  unfold parseNodesLine
  by_cases hp : "BU_".data.isPrefixOf (trimChars ℓ.data) <;> simp [hp]

/-! ### State-machine lemmas -/

/-- The loop invariant: once `in_message` holds, a message has been
appended (and none is ever removed). -/
def Inv (st : PState) : Prop := st.in_message = true → st.messages ≠ []

lemma parseNodesLine_shape (ℓ : String) :
    parseNodesLine ℓ = LineResult.wrongType ∨
      ∃ ns, parseNodesLine ℓ = LineResult.ok ns := by
  unfold parseNodesLine
  by_cases hp : "BU_".data.isPrefixOf (trimChars ℓ.data) <;> simp [hp]

lemma stepLine_ok_inv {i : Nat} {ℓ : String} {st st2 : PState}
    (h : stepLine i ℓ st = Except.ok st2) : Inv st2 := by
  unfold stepLine at h
  cases him : st.in_message with
  | true =>
    rw [him] at h
    rcases hm : st.messages with _ | ⟨m, ms⟩
    · rw [hm] at h; exact absurd h (by simp)
    · rw [hm] at h
      rcases hs : parseSignalLine ℓ with sg | _ | _ | _ <;> rw [hs] at h <;>
        simp at h
      · rw [← h]; intro _; simp [hm]
      · rw [← h]; intro hfalse; simp at hfalse
  | false =>
    rw [him] at h
    rcases parseNodesLine_shape ℓ with hn | ⟨ns, hn⟩ <;> rw [hn] at h <;>
      rcases hmsg : parseMessageLine ℓ with m | _ | _ | _ <;> rw [hmsg] at h <;>
        simp at h <;> rw [← h] <;> intro hfalse <;> simp_all [Inv]

lemma stepLine_not_lastNone {i : Nat} {ℓ : String} {st : PState}
    (hinv : Inv st) : stepLine i ℓ st ≠ Except.error ParseErr.lastNonePanic := by
  unfold stepLine
  cases him : st.in_message with
  | true =>
    rcases hm : st.messages with _ | ⟨m, ms⟩
    · exact absurd hm (hinv him)
    · rcases hs : parseSignalLine ℓ with sg | _ | _ | _ <;> simp
  | false =>
    rcases parseNodesLine_shape ℓ with hn | ⟨ns, hn⟩ <;> rw [hn] <;>
      rcases hmsg : parseMessageLine ℓ with m | _ | _ | _ <;> simp

lemma runLines_not_lastNone (ls : List String) :
    ∀ (i : Nat) {st : PState}, Inv st →
      runLines i ls st ≠ Except.error ParseErr.lastNonePanic ∧
      ∀ st2, runLines i ls st = Except.ok st2 → Inv st2 := by
  induction ls with
  | nil =>
    intro i st hinv
    refine ⟨by simp [runLines], ?_⟩
    intro st2 h
    simp [runLines] at h
    rw [← h]; exact hinv
  | cons l ls ih =>
    intro i st hinv
    unfold runLines
    rcases hstep : stepLine i l st with e | st2
    · refine ⟨?_, by intro st2 h; simp at h⟩
      intro hcontra
      simp at hcontra
      exact stepLine_not_lastNone hinv (by rw [hstep, hcontra])
    · exact ih (i + 1) (stepLine_ok_inv hstep)

lemma stepLine_not_invalidNodes {i : Nat} {ℓ : String} {st : PState}
    {n : Nat} {l2 : String} :
    stepLine i ℓ st ≠ Except.error (ParseErr.invalidNodes n l2) := by
  unfold stepLine
  cases st.in_message with
  | true =>
    rcases st.messages with _ | ⟨m, ms⟩
    · simp
    · rcases parseSignalLine ℓ with sg | _ | _ | _ <;> simp
  | false =>
    rcases parseNodesLine_shape ℓ with hn | ⟨ns, hn⟩ <;> rw [hn] <;>
      rcases parseMessageLine ℓ with m | _ | _ | _ <;> simp

lemma runLines_not_invalidNodes {ls : List String} :
    ∀ {i : Nat} {st : PState} {n : Nat} {l2 : String},
      runLines i ls st ≠ Except.error (ParseErr.invalidNodes n l2) := by
  induction ls with
  | nil => intro i st n l2; simp [runLines]
  | cons l ls ih =>
    intro i st n l2
    unfold runLines
    rcases hstep : stepLine i l st with e | st2
    · intro hcontra
      simp at hcontra
      exact stepLine_not_invalidNodes (by rw [hstep, hcontra])
    · exact ih

lemma parseSignalLine_empty : parseSignalLine "" = LineResult.wrongType := rfl

lemma stepLine_blankLike {i : Nat} {ℓ : String} {st : PState}
    (him : st.in_message = true) (hs : parseSignalLine ℓ = LineResult.wrongType) :
    stepLine i ℓ st = stepLine i "" st := by
  unfold stepLine
  rw [him]
  cases hm : st.messages with
  | nil => rfl
  | cons m ms => rw [hs, parseSignalLine_empty]

lemma runLines_blankLike {i : Nat} {ℓ : String} {st : PState} {post : List String}
    (him : st.in_message = true) (hs : parseSignalLine ℓ = LineResult.wrongType) :
    runLines i (ℓ :: post) st = runLines i ("" :: post) st := by
  unfold runLines
  rw [stepLine_blankLike him hs]

lemma stepLine_close {i : Nat} {ℓ : String} {st : PState} {m : Message}
    {ms : List Message}
    (him : st.in_message = true) (hm : st.messages = m :: ms)
    (hs : parseSignalLine ℓ = LineResult.wrongType) :
    stepLine i ℓ st =
      Except.ok ⟨st.nodes, setLastSignals (m :: ms) st.signals, [], false⟩ := by
  unfold stepLine
  rw [him, hm, hs]

lemma stepLine_nodes_replace {i : Nat} {ℓ : String} {st st2 : PState}
    {ns : List Node}
    (him : st.in_message = false) (hn : parseNodesLine ℓ = LineResult.ok ns)
    (h : stepLine i ℓ st = Except.ok st2) : st2.nodes = ns := by
  unfold stepLine at h
  rw [him, hn] at h
  rcases hmsg : parseMessageLine ℓ with m | _ | _ | _ <;> rw [hmsg] at h <;>
    simp at h <;> rw [← h]

lemma stepLine_nodes_preserve {i : Nat} {ℓ : String} {st st2 : PState}
    (h : stepLine i ℓ st = Except.ok st2)
    (hcase : st.in_message = true ∨ parseNodesLine ℓ = LineResult.wrongType) :
    st2.nodes = st.nodes := by
  unfold stepLine at h
  rcases hcase with him | hn
  · rw [him] at h
    rcases hm : st.messages with _ | ⟨m, ms⟩ <;> rw [hm] at h
    · simp at h
    · rcases hs : parseSignalLine ℓ with sg | _ | _ | _ <;> rw [hs] at h <;>
        simp at h <;> rw [← h]
  · cases him : st.in_message with
    | true =>
      rw [him] at h
      rcases hm : st.messages with _ | ⟨m, ms⟩ <;> rw [hm] at h
      · simp at h
      · rcases hs : parseSignalLine ℓ with sg | _ | _ | _ <;> rw [hs] at h <;>
          simp at h <;> rw [← h]
    | false =>
      rw [him, hn] at h
      rcases hmsg : parseMessageLine ℓ with m | _ | _ | _ <;> rw [hmsg] at h <;>
        simp at h <;> rw [← h]

/-- Returns `true` unless the result is the `messages.last_mut().unwrap()` panic
on an empty message vector. -/
def lastUnwrapOk : Except ParseErr Dbc → Bool
  | .error .lastNonePanic => false
  | _ => true

/-- Returns `true` unless the result is the fatal "Invalid syntax for nodes"
branch of the assembly loop. -/
def nodesBranchOk : Except ParseErr Dbc → Bool
  | .error (.invalidNodes _ _) => false
  | _ => true

/-- Returns `true` when the node-list classifier reports `InvalidContent`. -/
def nodesLineMalformed (ℓ : String) : Bool :=
  match parseNodesLine ℓ with
  | .invalidContent => true
  | _ => false

/-! ### Concrete inputs used by the end-to-end claims -/

/-- The end-to-end sample: one `BU_:` line with two names, then three
`BO_` blocks with 4, 2 and 1 `SG_` lines, blank lines between blocks,
no trailing blank line. -/
def dbcSampleText : String :=
  "BU_: TCU VEHICLE\n\nBO_ 2566117891 MsgDummy1: 8 Vector__XXX\n SG_ dummy1sg1 : 34|2@1+ (1,0) [0|3] \"kkk\" Vector__XXX\n SG_ dummy1sg2 : 18|16@1- (1,0) [0|65535] \"\" Vector__XXX\n SG_ dummy1sg3 : 2|16@1+ (1,0) [0|65535] \"\" Vector__XXX\n SG_ dummy1sg4 : 0|2@1+ (1,0) [0|3] \"\" Vector__XXX\n\nBO_ 2565921559 MsgDummy2: 8 Vector__XXX\n SG_ gps_longitude : 39|32@0- (1E-007,0) [-214.7483648|214.7483647] \"deg\" Vector__XXX\n SG_ gps_latitude : 7|32@0- (1E-007,0) [-214.7483648|214.7483647] \"deg\" Vector__XXX\n\nBO_ 2565986819 MsgDummy3: 8 TCU\n SG_ dummy3sg1 : 16|16@1+ (0.125,0) [0|8191.875] \"\" Vector__XXX"

/-! ### Claim theorems -/

/-- C1 (counterexample): the claimed classification rule is false on the
code at two concrete lines.  The node-list line `"BU_ TCU VEHICLE"` does
not begin with the claimed tag `BU_:` yet is classified Recognized (the
code's tag is `BU_` without the colon), and the line
`"x BO_ 1 n: 8 r"` does not begin with `BO_ ` yet is classified
Recognized, because the implementation's `is_match` searches for the
pattern anywhere in the line, not only at its start. -/
theorem claim_C1_counterexample :
    parseNodesLine "BU_ TCU VEHICLE" =
      LineResult.ok [⟨"TCU"⟩, ⟨"VEHICLE"⟩] ∧
    "BU_:".data.isPrefixOf (trimChars "BU_ TCU VEHICLE".data) = false ∧
    parseMessageLine "x BO_ 1 n: 8 r" = LineResult.ok ⟨1, "n", 8, []⟩ ∧
    "BO_ ".data.isPrefixOf (trimChars "x BO_ 1 n: 8 r".data) = false :=
  ⟨rfl, rfl, rfl, rfl⟩

/-- C1 (amended): for every input line, the node-list classifier (whose
tag is `BU_`, without a colon) returns Unrelated exactly when the
trimmed line does not begin with `BU_`, and never returns Malformed; the
message-header and signal classifiers return Unrelated exactly when
their pattern matches nowhere in the trimmed line and the trimmed line
does not begin with the tag (`BO_ `, `SG_ `), and Malformed exactly when
the pattern matches nowhere but the trimmed line does begin with the
tag; a line whose pattern matches somewhere (even not at the start) is
classified Recognized (or fails the numeric conversion). -/
theorem claim_C1_classifier (ℓ : String) :
    (parseNodesLine ℓ = LineResult.wrongType ↔
       "BU_".data.isPrefixOf (trimChars ℓ.data) = false) ∧
    (parseNodesLine ℓ = LineResult.invalidContent ↔ False) ∧
    (parseMessageLine ℓ = LineResult.wrongType ↔
       (msgSearch (trimChars ℓ.data) = none ∧
        "BO_ ".data.isPrefixOf (trimChars ℓ.data) = false)) ∧
    (parseMessageLine ℓ = LineResult.invalidContent ↔
       (msgSearch (trimChars ℓ.data) = none ∧
        "BO_ ".data.isPrefixOf (trimChars ℓ.data) = true)) ∧
    (parseSignalLine ℓ = LineResult.wrongType ↔
       (sigSearch (trimChars ℓ.data) = none ∧
        "SG_ ".data.isPrefixOf (trimChars ℓ.data) = false)) ∧
    (parseSignalLine ℓ = LineResult.invalidContent ↔
       (sigSearch (trimChars ℓ.data) = none ∧
        "SG_ ".data.isPrefixOf (trimChars ℓ.data) = true)) :=
  ⟨nodesLine_wrongType_iff ℓ, nodesLine_never_malformed ℓ,
   msgLine_wrongType_iff ℓ, msgLine_malformed_iff ℓ,
   sigLine_wrongType_iff ℓ, sigLine_malformed_iff ℓ⟩

/-- C2 (counterexample): the line `"BO_ zzz MsgX: 8 Vector__XXX"`
matches the message-header pattern and its size token parses, but its id
token `"zzz"` is not numeric at all, so the extraction step fails even
though neither token exceeds an integer range, contrary to the claim
that overflow is the only residual failure; moreover the failure is an
`unwrap` panic, not the Malformed diagnostic path. -/
theorem claim_C2_counterexample :
    msgSearch (trimChars "BO_ zzz MsgX: 8 Vector__XXX".data) =
      some ("zzz", "MsgX", "8", "Vector__XXX") ∧
    parseMessageLine "BO_ zzz MsgX: 8 Vector__XXX" = LineResult.panicked ∧
    parseBounded "8" U8MAX = some 8 :=
  ⟨rfl, rfl, rfl⟩

/-- C2 (amended): for every line matching the message-header pattern,
the extraction step fails exactly when the id token fails to parse as a
32-bit unsigned decimal (non-digit characters or overflow) or the size
token fails to parse as an 8-bit unsigned decimal; on a pattern match
the classifier outcome is only Recognized or this panic (never
Unrelated or Malformed), and in the Outside state the panic aborts the
parse fatally. -/
theorem claim_C2_extraction_failure
    (ℓ g1 g2 g3 g4 : String) (i : Nat) (st : PState)
    (h : msgSearch (trimChars ℓ.data) = some (g1, g2, g3, g4))
    (him : st.in_message = false) :
    (parseMessageLine ℓ = LineResult.panicked ↔
       (parseBounded g1 U32MAX = none ∨ parseBounded g3 U8MAX = none)) ∧
    (parseMessageLine ℓ = LineResult.panicked ∨
       ∃ m, parseMessageLine ℓ = LineResult.ok m) ∧
    (parseMessageLine ℓ = LineResult.panicked →
       stepLine i ℓ st = Except.error ParseErr.fromPanic) := by
  refine ⟨?_, ?_, ?_⟩
  · unfold parseMessageLine
    rw [h]
    unfold Message.fromCaps
    rcases hb1 : parseBounded g1 U32MAX with _ | v1 <;>
      rcases hb3 : parseBounded g3 U8MAX with _ | v3 <;> simp [hb1, hb3]
  · unfold parseMessageLine
    rw [h]
    rcases h2 : Message.fromCaps g1 g2 g3 g4 with _ | m <;> simp [h2]
  · intro hpan
    unfold stepLine
    rw [him]
    rcases parseNodesLine_shape ℓ with hn | ⟨ns, hn⟩ <;> rw [hn, hpan]

/-- C2 (witness): the amended statement instantiated at the
counterexample line, in the Outside state on line index 0. -/
theorem claim_C2_witness :
    (parseMessageLine "BO_ zzz MsgX: 8 Vector__XXX" = LineResult.panicked ↔
       (parseBounded "zzz" U32MAX = none ∨ parseBounded "8" U8MAX = none)) ∧
    (parseMessageLine "BO_ zzz MsgX: 8 Vector__XXX" = LineResult.panicked ∨
       ∃ m, parseMessageLine "BO_ zzz MsgX: 8 Vector__XXX" = LineResult.ok m) ∧
    (parseMessageLine "BO_ zzz MsgX: 8 Vector__XXX" = LineResult.panicked →
       stepLine 0 "BO_ zzz MsgX: 8 Vector__XXX" ⟨[], [], [], false⟩ =
         Except.error ParseErr.fromPanic) :=
  claim_C2_extraction_failure "BO_ zzz MsgX: 8 Vector__XXX"
    "zzz" "MsgX" "8" "Vector__XXX" 0 ⟨[], [], [], false⟩ rfl rfl

/-- C3 (counterexample): in the input whose first line is a valid `SG_`
signal line (encountered in the Outside state) and whose second line is
a valid `BO_` header, the header immediately follows a signal line yet
does produce a message, so the claim's final universal statement is
false as written: it only holds when the signal line is consumed inside
an open message block. -/
theorem claim_C3_counterexample :
    parse ("SG_ dummy1sg1 : 34|2@1+ (1,0) [0|3] \"kkk\" Vector__XXX\n" ++
           "BO_ 2566117891 MsgDummy1: 8 Vector__XXX") =
      Except.ok ⟨[], [⟨2566117891, "MsgDummy1", 8, []⟩]⟩ :=
  rfl

/-- C3 (amended): in the InsideMessage state a line Unrelated to the
signal construct closes the block — the pending signals are attached to
the most recently appended message and the state returns to Outside —
and the line is consumed exactly as a blank line would be, without being
evaluated against the node-list or message-header extractors; hence a
valid `BO_` header immediately following a signal line *consumed in the
InsideMessage state* produces no message, as the concrete three-line
input shows (its second header is silently dropped). -/
theorem claim_C3_block_close
    (i : Nat) (ℓ : String) (st : PState) (m : Message) (ms : List Message)
    (post : List String)
    (him : st.in_message = true) (hm : st.messages = m :: ms)
    (hs : parseSignalLine ℓ = LineResult.wrongType) :
    stepLine i ℓ st =
      Except.ok ⟨st.nodes, setLastSignals (m :: ms) st.signals, [], false⟩ ∧
    runLines i (ℓ :: post) st = runLines i ("" :: post) st ∧
    (parse ("BO_ 1 MsgA: 8 x\nSG_ s : 1|1@1+ (1,0) [0|1] \"u\" r\n" ++
            "BO_ 2 MsgB: 8 x")).map
        (fun d => d.messages.map (fun msg => (msg.id, msg.name))) =
      Except.ok [(1, "MsgA")] :=
  ⟨stepLine_close him hm hs, runLines_blankLike him hs, rfl⟩

/-- C3 (witness): the amended statement instantiated at the header line
`"BO_ 2 MsgB: 8 x"` arriving in the InsideMessage state. -/
theorem claim_C3_witness :
    stepLine 1 "BO_ 2 MsgB: 8 x" ⟨[], [⟨1, "MsgA", 8, []⟩], [], true⟩ =
      Except.ok ⟨[], setLastSignals [⟨1, "MsgA", 8, []⟩] [], [], false⟩ ∧
    runLines 1 ["BO_ 2 MsgB: 8 x"] ⟨[], [⟨1, "MsgA", 8, []⟩], [], true⟩ =
      runLines 1 [""] ⟨[], [⟨1, "MsgA", 8, []⟩], [], true⟩ ∧
    (parse ("BO_ 1 MsgA: 8 x\nSG_ s : 1|1@1+ (1,0) [0|1] \"u\" r\n" ++
            "BO_ 2 MsgB: 8 x")).map
        (fun d => d.messages.map (fun msg => (msg.id, msg.name))) =
      Except.ok [(1, "MsgA")] :=
  claim_C3_block_close 1 "BO_ 2 MsgB: 8 x" ⟨[], [⟨1, "MsgA", 8, []⟩], [], true⟩
    ⟨1, "MsgA", 8, []⟩ [] [] rfl rfl rfl

/-- C4: parsing the sample file (one `BU_:` line with two names, three
`BO_` blocks with 4, 2 and 1 `SG_` lines, blank lines between blocks,
last block ending at end of input) yields 2 nodes and 3 messages whose
signal counts are `[4, 2, 1]` in file order; the final block is attached
by the end-of-input flush. -/
theorem claim_C4_end_to_end :
    (parse dbcSampleText).map
        (fun d => (d.nodes.length, d.messages.map (fun m => m.signals.length))) =
      Except.ok (2, [4, 2, 1]) :=
  rfl

/-- C5: the message-header line with a missing size field is classified
Malformed, and the whole parse fails fatally with that line's 1-based
number and raw text — the error result carries no `Dbc` value. -/
theorem claim_C5_missing_size_fatal :
    parseMessageLine "BO_ 2566117891 MsgDummy1: Vector__XXX" =
      LineResult.invalidContent ∧
    parse "BO_ 2566117891 MsgDummy1: Vector__XXX" =
      Except.error (ParseErr.invalidMessageStart 1
        "BO_ 2566117891 MsgDummy1: Vector__XXX") :=
  ⟨rfl, rfl⟩

/-- C6: the `gps_longitude` signal line parses with start bit 39, size
32, big-endian (order digit `0`), signed (sign `-`), factor kept
verbatim as `"1E-007"`, min/max kept verbatim, and the unit `"deg"` with
the quotes stripped. -/
theorem claim_C6_signal_fields :
    parseSignalLine
        "SG_ gps_longitude : 39|32@0- (1E-007,0) [-214.7483648|214.7483647] \"deg\" Vector__XXX" =
      LineResult.ok ⟨"gps_longitude", 39, 32, false, true, "1E-007", "0",
        "-214.7483648", "214.7483647", "deg"⟩ :=
  rfl

/-- C7: the node-list line `"BU_: TCU VEHICLE"` yields exactly the nodes
`TCU` and `VEHICLE` in that order, both at the extractor and through a
whole parse. -/
theorem claim_C7_nodes_line :
    parseNodesLine "BU_: TCU VEHICLE" =
      LineResult.ok [⟨"TCU"⟩, ⟨"VEHICLE"⟩] ∧
    (parse "BU_: TCU VEHICLE").map Dbc.nodes =
      Except.ok [⟨"TCU"⟩, ⟨"VEHICLE"⟩] :=
  ⟨rfl, rfl⟩

/-- C8: a node-list line recognized in the Outside state replaces the
whole node sequence (the new nodes do not depend on the previous ones),
every other successful step leaves the node sequence unchanged, and on
the concrete two-`BU_:`-line file only the second line's nodes remain. -/
theorem claim_C8_nodes_last_wins
    (i j : Nat) (ℓ l2 : String) (st st2 su sv : PState) (ns : List Node)
    (him : st.in_message = false) (hn : parseNodesLine ℓ = LineResult.ok ns)
    (h : stepLine i ℓ st = Except.ok st2)
    (h2 : stepLine j l2 su = Except.ok sv)
    (hc : su.in_message = true ∨ parseNodesLine l2 = LineResult.wrongType) :
    st2.nodes = ns ∧ sv.nodes = su.nodes ∧
    (parse "BU_: TCU VEHICLE\nBU_: AAA BBB").map Dbc.nodes =
      Except.ok [⟨"AAA"⟩, ⟨"BBB"⟩] :=
  ⟨stepLine_nodes_replace him hn h, stepLine_nodes_preserve h2 hc, rfl⟩

/-- C8 (witness): the statement instantiated at the node-list line
`"BU_: AAA BBB"` replacing existing nodes, and at a blank line closing a
message block without touching the nodes. -/
theorem claim_C8_witness :
    (⟨[⟨"AAA"⟩, ⟨"BBB"⟩], [], [], false⟩ : PState).nodes =
      [⟨"AAA"⟩, ⟨"BBB"⟩] ∧
    (⟨[], [⟨1, "MsgA", 8, []⟩], [], false⟩ : PState).nodes =
      (⟨[], [⟨1, "MsgA", 8, []⟩], [], true⟩ : PState).nodes ∧
    (parse "BU_: TCU VEHICLE\nBU_: AAA BBB").map Dbc.nodes =
      Except.ok [⟨"AAA"⟩, ⟨"BBB"⟩] :=
  claim_C8_nodes_last_wins 0 1 "BU_: AAA BBB" ""
    ⟨[⟨"TCU"⟩, ⟨"VEHICLE"⟩], [], [], false⟩
    ⟨[⟨"AAA"⟩, ⟨"BBB"⟩], [], [], false⟩
    ⟨[], [⟨1, "MsgA", 8, []⟩], [], true⟩
    ⟨[], [⟨1, "MsgA", 8, []⟩], [], false⟩
    [⟨"AAA"⟩, ⟨"BBB"⟩] rfl rfl rfl rfl (Or.inl rfl)

/-- C9 (implicit): whenever the state is InsideMessage the message
vector is non-empty, so the `messages.last_mut().unwrap()` accesses —
when a closed block's signals are attached and at the end-of-input
flush — can never hit the empty-vector panic, for any input text. -/
theorem claim_C9_last_unwrap_safe (contents : String) :
    lastUnwrapOk (parse contents) = true := by
  unfold parse
  have h0 : Inv ⟨[], [], [], false⟩ := fun hfalse => nomatch hfalse
  obtain ⟨hne, hinv⟩ := runLines_not_lastNone (rustLines contents) 0 h0
  rcases hr : runLines 0 (rustLines contents) ⟨[], [], [], false⟩ with e | st
  · have he : e ≠ ParseErr.lastNonePanic := by
      intro hh
      exact hne (by rw [hr, hh])
    cases e <;> first | rfl | exact absurd rfl he
  · have hst := hinv st hr
    show lastUnwrapOk (finishState st) = true
    unfold finishState
    cases him : st.in_message with
    | false => rfl
    | true =>
      rcases hm : st.messages with _ | ⟨m, ms⟩
      · exact absurd hm (hst him)
      · rfl

/-- C10 (implicit): the node-list classification never returns Malformed
for any input line — it is either Unrelated or Recognized (possibly with
an empty node list) — so the fatal "Invalid syntax for nodes" branch of
the assembly loop is unreachable for every input text. -/
theorem claim_C10_nodes_never_malformed (ℓ contents : String) :
    nodesLineMalformed ℓ = false ∧ nodesBranchOk (parse contents) = true := by
  constructor
  · unfold nodesLineMalformed
    rcases parseNodesLine_shape ℓ with h | ⟨ns, h⟩ <;> rw [h]
  · unfold parse
    rcases hr : runLines 0 (rustLines contents) ⟨[], [], [], false⟩ with e | st
    · cases e with
      | invalidNodes n l2 => exact absurd hr runLines_not_invalidNodes
      | invalidMessageStart n l2 => rfl
      | invalidSignal n l2 => rfl
      | fromPanic => rfl
      | lastNonePanic => rfl
    · show nodesBranchOk (finishState st) = true
      unfold finishState
      cases him : st.in_message with
      | false => rfl
      | true =>
        rcases hm : st.messages with _ | ⟨m, ms⟩ <;> rfl

end ImportDbc
